import Mathlib

/-!
# godan: key validation and the account-info client

A shallow embedding of `apishodan/apishodan.go` (`InfoAccount`, `GetValidKey`)
and of the guard in `main.go` that precedes the call of `GetValidKey`.

* `InfoAccount` is a pure function of what the network answers to its one
  request; the diagnostic output it writes is returned next to the result.
* `GetValidKey` starts goroutines, so it is embedded as a transition system:
  a state holds the three channels, the wait group, the program counter of
  every probe goroutine, of the closer goroutine and of the caller, and
  `GetValidKey.step` executes one atomic action of one goroutine. A schedule
  is a list of actions; every interleaving of the goroutines is a schedule.
  The caller starts every goroutine before it reaches its `select`, and a
  goroutine that is started but has not run yet cannot be told from one that
  is not started yet, so the initial state holds all of them, not yet run.
  The `select` is one action of the caller, enabled when one of its arms can
  proceed; when several can, any of them may be taken. A caller that is parked
  in the `select` and woken by the first arm that becomes ready is the
  schedule in which that action follows at once.
-/

set_option linter.unusedTactic false
set_option linter.unreachableTactic false

namespace Godan

/-! ## Values of the Go runtime and of the standard library -/

/-- A Go `error` value: the dynamic type `fmt` prints for it and its `Error()` text. -/
structure GoError where
  dynType : String
  msg : String
deriving DecidableEq, Repr, Inhabited

/-- The value of `errors.New(s)`; `fmt.Errorf` without a wrapping verb returns the same. -/
def errorsNew (s : String) : GoError := ⟨"*errors.errorString", s⟩

/-- What `fmt` appends for one surplus operand: the text after the format is
`%!(EXTRA type=value)`, and `%!(EXTRA <nil>)` for a nil interface. -/
def fmtExtra : Option GoError → String
  | none => "%!(EXTRA <nil>)"
  | some e => "%!(EXTRA " ++ e.dynType ++ "=" ++ e.msg ++ ")"

/-! ## Data model (`apishodan.go`, lines 14-57) -/

def URL : String := "https://api.shodan.io"

def StatusUnauthorized : Int := 401

structure API where
  apiKey : String
deriving DecidableEq, Repr

structure UsageLimits where
  ScanCredits : Int
  QueryCredits : Int
  MonitoredIPs : Option Int
deriving DecidableEq, Repr, Inhabited

structure JsonData where
  ScanCredits : Int
  UsageLimits : UsageLimits
  Plan : String
  HTTPS : Bool
  Unlocked : Bool
  QueryCredits : Int
  MonitoredIPs : Option Int
  UnlockedLeft : Int
  Telnet : Bool
deriving DecidableEq, Repr, Inhabited

def New (key : String) : API := ⟨key⟩

/-! ## The network as seen by one call of `InfoAccount` -/

/-- An HTTP response: its status code and what `io.ReadAll(res.Body)` returns,
the bytes read and the read error, if any. -/
structure Response where
  StatusCode : Int
  body : String
  readErr : Option GoError
deriving DecidableEq, Repr

/-- The answer of the outside world to one request: the error of
`http.NewRequestWithContext`, if any, and the result of `http.DefaultClient.Do`. -/
structure Exchange where
  newRequestErr : Option GoError
  doResult : Except GoError Response

/-- The result of `json.Unmarshal(bodyBytes, &ret)`, a function of the standard library. -/
abbrev Unmarshal := String → Except GoError JsonData

/-- The request URL, `fmt.Sprintf("%s/api-info?key=%s", URL, s.apiKey)`. -/
def infoURL (s : API) : String := URL ++ "/api-info?key=" ++ s.apiKey

/-- The method `(*API).InfoAccount`, lines 59-99: the returned pair `(*JsonData, error)` as a sum,
and the lines written to the log and to standard output. -/
def InfoAccount (unmarshal : Unmarshal) (http : String → Exchange) (s : API) (verbose : Bool) :
    Except GoError JsonData × List String :=
  let x := http (infoURL s)
  match x.newRequestErr with
  | some err => (.error err, [])
  | none =>
    let out1 := if verbose then ["Sending request to Shodan API"] else []
    match x.doResult with
    | .error err => (.error err, out1)
    | .ok res =>
      if res.StatusCode = StatusUnauthorized then
        (.error (errorsNew ("unauthorized access: " ++ res.body)), out1)
      else
        match res.readErr with
        | some err => (.error err, out1)
        | none =>
          let out2 := if verbose then out1 ++ ["Raw JSON: " ++ res.body] else out1
          match unmarshal res.body with
          | .error err =>
            (.error err,
              if verbose then
                out2 ++ ["Error unmarshalling JSON: " ++ err.msg ++ "\nRaw JSON: " ++ res.body]
              else out2)
          | .ok ret => (.ok ret, out2)

/-! ## `GetValidKey` (`apishodan.go`, lines 123-217) -/

/-- The outside world of one call of `GetValidKey`: the JSON decoder, the
answer of the network to the request of the goroutine started for `keys[i]`,
and the value of `ctx.Err()` once the context is done. -/
structure Env where
  unmarshal : Unmarshal
  http : Nat → String → Exchange
  ctxErr : GoError

/-- What a probe goroutine does with the result of `InfoAccount`. -/
inductive Terminal where
  /-- The statement `errChan <- err`. -/
  | sendErr (err : GoError)
  /-- The statement `select { case validKeyChan <- k: default: }` under `mu`. -/
  | offer (k : String)
deriving DecidableEq, Repr

/-- The goroutine of `keys[0]`, lines 141-164: the terminal action chosen after
`InfoAccount` returned `r`, and the lines logged on the way. -/
def firstKeyTerminal (verbose : Bool) (k : String) (r : Except GoError JsonData) :
    Terminal × List String :=
  match r with
  | .error err =>
    (.sendErr err, if verbose then ["Key " ++ k ++ " is invalid: " ++ err.msg] else [])
  | .ok info =>
    let out := if verbose then
      ["Key " ++ k ++ " is valid with " ++ toString info.QueryCredits ++ " query credits"] else []
    if info.QueryCredits > 0 then
      (.offer k, out)
    else
      (.sendErr (errorsNew "no query credits"),
        if verbose then out ++ ["Key " ++ k ++ " has no query credits"] else out)

/-- The goroutine of `keys[i]`, `1 ≤ i`, lines 175-198, after its `time.Sleep`. -/
def laterKeyTerminal (verbose : Bool) (k : String) (r : Except GoError JsonData) :
    Terminal × List String :=
  match r with
  | .error err =>
    (.sendErr err, if verbose then ["Key " ++ k ++ " is invalid: " ++ err.msg] else [])
  | .ok info =>
    let out := if verbose then
      ["Key " ++ k ++ " is valid with " ++ toString info.QueryCredits ++ " query credits"] else []
    if info.QueryCredits > 0 then
      (.offer k, out)
    else
      (.sendErr (errorsNew "no query credits"),
        if verbose then out ++ ["Key " ++ k ++ " has no query credits"] else out)

/-- Program counter of a probe goroutine. -/
inductive Pc where
  /-- Started by `go`, before `sem <- struct{}{}`. -/
  | start
  /-- Holds a slot of `sem`, before `time.Sleep` (goroutines of `keys[1:]` only). -/
  | admitted
  /-- Holds a slot, before the call of `InfoAccount`. -/
  | probing
  /-- After `InfoAccount` has returned `r`; the terminal action is next. -/
  | probed (r : Except GoError JsonData)
  /-- The body has returned; the deferred `<-sem` is next. -/
  | acted
  /-- The slot is released; the deferred `wg.Done()` is next. -/
  | released
  /-- The goroutine has ended. -/
  | done

/-- The goroutine holds a slot of `sem`: it has sent to `sem` and not yet received. -/
def Pc.holds : Pc → Bool
  | .start => false
  | .admitted => true
  | .probing => true
  | .probed _ => true
  | .acted => true
  | .released => false
  | .done => false

/-- The goroutine has performed its terminal action. -/
def Pc.sent : Pc → Bool
  | .start => false
  | .admitted => false
  | .probing => false
  | .probed _ => false
  | .acted => true
  | .released => true
  | .done => true

/-- The goroutine has ended, `wg.Done()` included. -/
def Pc.isDone : Pc → Bool
  | .start => false
  | .admitted => false
  | .probing => false
  | .probed _ => false
  | .acted => false
  | .released => false
  | .done => true

/-- The call of `InfoAccount` has not returned yet. -/
def Pc.beforeProbe : Pc → Bool
  | .start => true
  | .admitted => true
  | .probing => true
  | .probed _ => false
  | .acted => false
  | .released => false
  | .done => false

/-- A probe goroutine: the argument `k` it was started with, whether its body
has the `time.Sleep` of line 173, its program counter, and a history of what it
has done: calls of `InfoAccount`, credentials offered to `validKeyChan` and
errors sent to `errChan`. -/
structure Task where
  k : String
  stagger : Bool
  pc : Pc
  calls : Nat
  offered : List String
  recorded : List GoError

/-- Program counter of the closer goroutine, lines 202-206. -/
inductive CloserPc where
  /-- In `wg.Wait()`. -/
  | waiting
  /-- Before `close(validKeyChan)`. -/
  | closingValid
  /-- Before `close(errChan)`. -/
  | closingErr
  | finished
deriving DecidableEq, Repr

/-- The return values `(string, error)` of `GetValidKey`. -/
structure Ret where
  key : String
  err : Option GoError
deriving DecidableEq, Repr

structure State where
  tasks : List Task
  /-- Buffer of `validKeyChan`, capacity 1. -/
  validKeyChan : Option String
  validClosed : Bool
  /-- Buffer of `errChan`, oldest first, and its capacity `len(keys)`. -/
  errChan : List GoError
  errCap : Nat
  errClosed : Bool
  /-- Number of elements in `sem` and its capacity `maxGoroutines`. -/
  sem : Nat
  semCap : Nat
  /-- Counter of the wait group. -/
  wg : Nat
  closer : CloserPc
  /-- Whether `ctx.Done()` is closed. -/
  ctxDone : Bool
  /-- The values returned to the caller, once the `select` of line 208 has run. -/
  ret : Option Ret
  /-- The message of a runtime panic in one of the goroutines. -/
  panicked : Option String
  /-- Lines written to the log and to standard output. -/
  out : List String

/-- The arms of the `select` of lines 208-216. -/
inductive SelectCase where
  | recvValid
  | ctxDone
  | recvErr
deriving DecidableEq, Repr

/-- One atomic action of one goroutine, or of the context. -/
inductive Action where
  /-- Goroutine `i`: `sem <- struct{}{}`. -/
  | acquire (i : Nat)
  /-- Goroutine `i`, `1 ≤ i`: `time.Sleep(1 * time.Second)` returns. -/
  | sleep (i : Nat)
  /-- Goroutine `i`: `api.InfoAccount(ctx, verbose)` returns. -/
  | probe (i : Nat)
  /-- Goroutine `i`: the send to `errChan` or the offer to `validKeyChan`. -/
  | act (i : Nat)
  /-- Goroutine `i`: the deferred `<-sem`. -/
  | release (i : Nat)
  /-- Goroutine `i`: the deferred `wg.Done()`. -/
  | finish (i : Nat)
  /-- Closer: `wg.Wait()` returns. -/
  | closerWait
  /-- Closer: `close(validKeyChan)`. -/
  | closeValid
  /-- Closer: `close(errChan)`. -/
  | closeErr
  /-- The deadline of `ctx` passes, or `ctx` is cancelled. -/
  | cancel
  /-- Caller: the `select` proceeds with the arm `c`. -/
  | select (c : SelectCase)
deriving DecidableEq, Repr

/-- The failure of line 215, `fmt.Errorf("no valid keys available... erro:\n", err)`:
the format has no verb, so `err` is a surplus operand. -/
def noValidKeys (err : Option GoError) : GoError :=
  errorsNew ("no valid keys available... erro:\n" ++ fmtExtra err)

namespace GetValidKey

/-- The goroutine of lines 136-165, started with `keys[0]`. -/
def firstKeyTask (k : String) : Task :=
  { k := k, stagger := false, pc := .start, calls := 0, offered := [], recorded := [] }

/-- The goroutine of lines 169-199, started with `keys[i]` for `1 ≤ i`. -/
def laterKeyTask (k : String) : Task :=
  { k := k, stagger := true, pc := .start, calls := 0, offered := [], recorded := [] }

/-- Lines 124-206: the channels are made, one goroutine is started for `keys[0]`
and one for every `keys[i]`, `1 ≤ i < len(keys)`, with `wg.Add(1)` each, and the
closer is started. `make` panics for a negative capacity and `keys[0]` panics
for an empty slice. The result is the state in which no goroutine has run. -/
def init (verbose : Bool) (keys : List String) (maxGoroutines : Int) : Except String State :=
  if maxGoroutines < 0 then .error "makechan: size out of range"
  else
    match keys with
    | [] => .error "index out of range [0] with length 0"
    | k0 :: rest =>
      .ok
        { tasks := firstKeyTask k0 :: rest.map laterKeyTask
          validKeyChan := none
          validClosed := false
          errChan := []
          errCap := keys.length
          errClosed := false
          sem := 0
          semCap := maxGoroutines.toNat
          wg := 1 + rest.length
          closer := .waiting
          ctxDone := false
          ret := none
          panicked := none
          out := if verbose then ["Validating keys..."] else [] }

/-- The terminal action of goroutine `t` after `InfoAccount` returned `r`. -/
def terminal (verbose : Bool) (t : Task) (r : Except GoError JsonData) : Terminal × List String :=
  if t.stagger then laterKeyTerminal verbose t.k r else firstKeyTerminal verbose t.k r

/-- One step of goroutine `i`, whose state is `t`. -/
def stepTask (env : Env) (verbose : Bool) (s : State) (i : Nat) (t : Task) :
    Action → Option State
  | .acquire _ =>
    match t.pc with
    | .start =>
      if s.sem < s.semCap then
        some { s with
          sem := s.sem + 1
          tasks := s.tasks.set i { t with pc := if t.stagger then .admitted else .probing } }
      else none
    | _ => none
  | .sleep _ =>
    match t.pc with
    | .admitted => some { s with tasks := s.tasks.set i { t with pc := .probing } }
    | _ => none
  | .probe _ =>
    match t.pc with
    | .probing =>
      let r := InfoAccount env.unmarshal (env.http i) (New t.k) verbose
      some { s with
        tasks := s.tasks.set i { t with pc := .probed r.1, calls := t.calls + 1 }
        out := s.out ++ r.2 }
    | _ => none
  | .act _ =>
    match t.pc with
    | .probed r =>
      match terminal verbose t r with
      | (.sendErr err, out) =>
        if s.errClosed then
          some { s with panicked := some "send on closed channel", out := s.out ++ out }
        else if s.errChan.length < s.errCap then
          some { s with
            errChan := s.errChan ++ [err]
            tasks := s.tasks.set i { t with pc := .acted, recorded := t.recorded ++ [err] }
            out := s.out ++ out }
        else none
      | (.offer k, out) =>
        if s.validClosed then
          some { s with panicked := some "send on closed channel", out := s.out ++ out }
        else
          some { s with
            validKeyChan := match s.validKeyChan with
              | none => some k
              | some k1 => some k1
            tasks := s.tasks.set i { t with pc := .acted, offered := t.offered ++ [k] }
            out := s.out ++ out }
    | _ => none
  | .release _ =>
    match t.pc with
    | .acted =>
      if 0 < s.sem then
        some { s with sem := s.sem - 1, tasks := s.tasks.set i { t with pc := .released } }
      else none
    | _ => none
  | .finish _ =>
    match t.pc with
    | .released =>
      match s.wg with
      | 0 => some { s with panicked := some "sync: negative WaitGroup counter" }
      | n + 1 => some { s with wg := n, tasks := s.tasks.set i { t with pc := .done } }
    | _ => none
  | _ => none

/-- The `select` of lines 208-216 with the arm `c`: `none` when that arm cannot
proceed. A receive proceeds on a buffered element, and on a closed and drained
channel it yields the zero value. -/
def stepSelect (env : Env) (s : State) : SelectCase → Option State
  | .recvValid =>
    match s.validKeyChan with
    | some key => some { s with validKeyChan := none, ret := some ⟨key, none⟩ }
    | none => if s.validClosed then some { s with ret := some ⟨"", none⟩ } else none
  | .ctxDone =>
    if s.ctxDone then some { s with ret := some ⟨"", some env.ctxErr⟩ } else none
  | .recvErr =>
    match s.errChan with
    | err :: rest => some { s with errChan := rest, ret := some ⟨"", some (noValidKeys (some err))⟩ }
    | [] => if s.errClosed then some { s with ret := some ⟨"", some (noValidKeys none)⟩ } else none

/-- One step of the whole program: `none` when the action is not enabled
(its goroutine is elsewhere, or blocked), and after a panic. -/
def step (env : Env) (verbose : Bool) (a : Action) (s : State) : Option State :=
  match s.panicked with
  | some _ => none
  | none =>
    match a with
    | .acquire i | .sleep i | .probe i | .act i | .release i | .finish i =>
      match s.tasks[i]? with
      | some t => stepTask env verbose s i t a
      | none => none
    | .closerWait =>
      match s.closer with
      | .waiting => if s.wg = 0 then some { s with closer := .closingValid } else none
      | _ => none
    | .closeValid =>
      match s.closer with
      | .closingValid => some { s with validClosed := true, closer := .closingErr }
      | _ => none
    | .closeErr =>
      match s.closer with
      | .closingErr => some { s with errClosed := true, closer := .finished }
      | _ => none
    | .cancel => some { s with ctxDone := true }
    | .select c =>
      match s.ret with
      | some _ => none
      | none => stepSelect env s c

/-- The state after a schedule, `none` when one of its actions is not enabled. -/
def run (env : Env) (verbose : Bool) : List Action → State → Option State
  | [], s => some s
  | a :: as, s => (step env verbose a s).bind (run env verbose as)

/-- The state `GetValidKey(ctx, keys, maxGoroutines, verbose)` is in after the
schedule `sched`; `none` when the call panics at its start or the schedule
has an action that is not enabled. -/
def exec (env : Env) (verbose : Bool) (keys : List String) (maxGoroutines : Int)
    (sched : List Action) : Option State :=
  match init verbose keys maxGoroutines with
  | .ok s => run env verbose sched s
  | .error _ => none

/-- The states `GetValidKey(ctx, keys, maxGoroutines, verbose)` can be in. -/
inductive Reachable (env : Env) (verbose : Bool) (keys : List String) (maxGoroutines : Int) :
    State → Prop where
  | init {s : State} : init verbose keys maxGoroutines = .ok s →
      Reachable env verbose keys maxGoroutines s
  | step {s s1 : State} (a : Action) : Reachable env verbose keys maxGoroutines s →
      step env verbose a s = some s1 → Reachable env verbose keys maxGoroutines s1

/-- The state without its diagnostic output. -/
def mute (s : State) : State := { s with out := [] }

/-- The steps of `step` as a relation, one constructor for each branch that
returns a state. -/
inductive Step (env : Env) (verbose : Bool) (s : State) : State → Prop where
  | acquire (i : Nat) (t : Task) : s.tasks[i]? = some t → t.pc = .start → s.sem < s.semCap →
      Step env verbose s { s with
        sem := s.sem + 1
        tasks := s.tasks.set i { t with pc := if t.stagger then .admitted else .probing } }
  | sleep (i : Nat) (t : Task) : s.tasks[i]? = some t → t.pc = .admitted →
      Step env verbose s { s with tasks := s.tasks.set i { t with pc := .probing } }
  | probe (i : Nat) (t : Task) : s.tasks[i]? = some t → t.pc = .probing →
      Step env verbose s { s with
        tasks := s.tasks.set i { t with
          pc := .probed (InfoAccount env.unmarshal (env.http i) (New t.k) verbose).1
          calls := t.calls + 1 }
        out := s.out ++ (InfoAccount env.unmarshal (env.http i) (New t.k) verbose).2 }
  | sendErr (i : Nat) (t : Task) (r : Except GoError JsonData) (err : GoError)
      (out : List String) : s.tasks[i]? = some t → t.pc = .probed r →
      terminal verbose t r = (.sendErr err, out) → s.errClosed = false →
      s.errChan.length < s.errCap →
      Step env verbose s { s with
        errChan := s.errChan ++ [err]
        tasks := s.tasks.set i { t with pc := .acted, recorded := t.recorded ++ [err] }
        out := s.out ++ out }
  | sendErrClosed (i : Nat) (t : Task) (r : Except GoError JsonData) (err : GoError)
      (out : List String) : s.tasks[i]? = some t → t.pc = .probed r →
      terminal verbose t r = (.sendErr err, out) → s.errClosed = true →
      Step env verbose s { s with panicked := some "send on closed channel", out := s.out ++ out }
  | offer (i : Nat) (t : Task) (r : Except GoError JsonData) (k : String)
      (out : List String) : s.tasks[i]? = some t → t.pc = .probed r →
      terminal verbose t r = (.offer k, out) → s.validClosed = false →
      Step env verbose s { s with
        validKeyChan := match s.validKeyChan with
          | none => some k
          | some k1 => some k1
        tasks := s.tasks.set i { t with pc := .acted, offered := t.offered ++ [k] }
        out := s.out ++ out }
  | offerClosed (i : Nat) (t : Task) (r : Except GoError JsonData) (k : String)
      (out : List String) : s.tasks[i]? = some t → t.pc = .probed r →
      terminal verbose t r = (.offer k, out) → s.validClosed = true →
      Step env verbose s { s with panicked := some "send on closed channel", out := s.out ++ out }
  | release (i : Nat) (t : Task) : s.tasks[i]? = some t → t.pc = .acted → 0 < s.sem →
      Step env verbose s { s with
        sem := s.sem - 1, tasks := s.tasks.set i { t with pc := .released } }
  | finish (i : Nat) (t : Task) (n : Nat) : s.tasks[i]? = some t → t.pc = .released →
      s.wg = n + 1 →
      Step env verbose s { s with wg := n, tasks := s.tasks.set i { t with pc := .done } }
  | finishPanic (i : Nat) (t : Task) : s.tasks[i]? = some t → t.pc = .released → s.wg = 0 →
      Step env verbose s { s with panicked := some "sync: negative WaitGroup counter" }
  | closerWait : s.closer = .waiting → s.wg = 0 →
      Step env verbose s { s with closer := .closingValid }
  | closeValid : s.closer = .closingValid →
      Step env verbose s { s with validClosed := true, closer := .closingErr }
  | closeErr : s.closer = .closingErr →
      Step env verbose s { s with errClosed := true, closer := .finished }
  | cancel : Step env verbose s { s with ctxDone := true }
  | select (c : SelectCase) (s1 : State) : s.ret = none → stepSelect env s c = some s1 →
      Step env verbose s s1

end GetValidKey

/-- The values `GetValidKey(ctx, keys, maxGoroutines, verbose)` has returned
after the schedule `sched`: `none` when the caller is still at its `select`
(or the call has panicked, or the schedule is not enabled). -/
def GetValidKey (env : Env) (verbose : Bool) (keys : List String) (maxGoroutines : Int)
    (sched : List Action) : Option Ret :=
  (GetValidKey.exec env verbose keys maxGoroutines sched).bind (fun s => s.ret)

/-! ## `main` (`main.go`, lines 15-65) -/

def MaxGoroutines : Int := 5

/-- How far `main` gets with the keys `LoadKeys` returned, for the first
domain of its loop. -/
inductive MainEntry where
  /-- Stopped by `log.Fatal` at line 37. -/
  | fatal (msg : String)
  /-- A runtime panic inside `GetValidKey`. -/
  | panicked (msg : String)
  /-- The call of `GetValidKey` at line 62 is running, in the state `s`. -/
  | validating (s : State)

/-- Lines 35-38 and 62 of `main`: the guard on the loaded keys, then the call
`GetValidKey(ctx, keys, MaxGoroutines, *verbose)`. -/
def mainEntry (verbose : Bool) (keys : List String) : MainEntry :=
  if keys.length = 0 then .fatal "No API keys loaded"
  else
    match GetValidKey.init verbose keys MaxGoroutines with
    | .error msg => .panicked msg
    | .ok s => .validating s

/-! ## A concrete outside world, for examples -/

/-- A decoder defined on two bodies: `0` and `5` decode to an account with
that many query credits, anything else is a syntax error. -/
def exampleUnmarshal : Unmarshal := fun body =>
  if body = "0" then .ok { (default : JsonData) with QueryCredits := 0 }
  else if body = "5" then .ok { (default : JsonData) with QueryCredits := 5 }
  else .error ⟨"*json.SyntaxError", "invalid character"⟩

/-- The world in which the request of goroutine `i` is answered with status
200 and the `i`-th of `bodies`. -/
def exampleEnv (bodies : List String) : Env :=
  { unmarshal := exampleUnmarshal
    http := fun i _ =>
      { newRequestErr := none
        doResult := .ok { StatusCode := 200, body := bodies.getD i "", readErr := none } }
    ctxErr := ⟨"context.deadlineExceededError", "context deadline exceeded"⟩ }

/-! ## The invariant of `GetValidKey` -/

namespace GetValidKey

/-- The credentials a goroutine started with `k` has offered and the errors it
has sent once its terminal action is over, when `InfoAccount` returned `r`. -/
def expectedHistory (k : String) : Except GoError JsonData → List String × List GoError
  | .error err => ([], [err])
  | .ok info => if info.QueryCredits > 0 then ([k], []) else ([], [errorsNew "no query credits"])

/-- The history of a goroutine agrees with its program counter, `r` being what
its call of `InfoAccount` returns. -/
def History (r : Except GoError JsonData) (t : Task) : Prop :=
  match t.pc with
  | .start | .admitted | .probing => t.calls = 0 ∧ t.offered = [] ∧ t.recorded = []
  | .probed r1 => r1 = r ∧ t.calls = 1 ∧ t.offered = [] ∧ t.recorded = []
  | .acted | .released | .done => t.calls = 1 ∧ (t.offered, t.recorded) = expectedHistory t.k r

/-- Goroutine `i` was started with `keys[i]`, only the one of `keys[0]` lacks
the stagger, and its history agrees with its program counter. -/
def TaskOK (env : Env) (verbose : Bool) (keys : List String) (i : Nat) (t : Task) : Prop :=
  keys[i]? = some t.k ∧ t.stagger = (i != 0) ∧
    History (InfoAccount env.unmarshal (env.http i) (New t.k) verbose).1 t

/-- What holds in every state of `GetValidKey(ctx, keys, maxGoroutines, verbose)`. -/
structure Inv (env : Env) (verbose : Bool) (keys : List String) (maxGoroutines : Int)
    (s : State) : Prop where
  noPanic : s.panicked = none
  len : s.tasks.length = keys.length
  errCap : s.errCap = keys.length
  semCap : (s.semCap : Int) = maxGoroutines
  sem : s.sem = s.tasks.countP (fun t => t.pc.holds)
  semLe : s.sem ≤ s.semCap
  wg : s.wg = s.tasks.countP (fun t => !t.pc.isDone)
  err : s.errChan.length ≤ s.tasks.countP (fun t => t.pc.sent)
  valid : s.validKeyChan.isSome = true → 0 < s.tasks.countP (fun t => t.pc.sent)
  closer : (s.closer = .waiting ∧ s.validClosed = false ∧ s.errClosed = false) ∨ s.wg = 0
  task : ∀ i t, s.tasks[i]? = some t → TaskOK env verbose keys i t

end GetValidKey

/-! ## Steps of `GetValidKey` -/

namespace GetValidKey

theorem step_sound {env : Env} {verbose : Bool} {a : Action} {s s1 : State}
    (h : step env verbose a s = some s1) : s.panicked = none ∧ Step env verbose s s1 := by
  unfold step at h
  split at h
  · simp at h
  refine ⟨‹_›, ?_⟩
  repeat' (first | split at h | (simp only [stepTask] at h; split at h))
  all_goals (try (simp at h; done))
  all_goals (try (simp only [Option.some.injEq] at h; subst h))
  all_goals first
    | exact Step.acquire _ _ ‹_› ‹_› ‹_›
    | exact Step.sleep _ _ ‹_› ‹_›
    | exact Step.probe _ _ ‹_› ‹_›
    | exact Step.sendErr _ _ _ _ _ ‹_› ‹_› ‹_› (by simpa using ‹¬ s.errClosed = true›) ‹_›
    | exact Step.sendErrClosed _ _ _ _ _ ‹_› ‹_› ‹_› ‹_›
    | exact Step.offer _ _ _ _ _ ‹_› ‹_› ‹_› (by simpa using ‹¬ s.validClosed = true›)
    | exact Step.offerClosed _ _ _ _ _ ‹_› ‹_› ‹_› ‹_›
    | exact Step.release _ _ ‹_› ‹_› ‹_›
    | exact Step.finish _ _ _ ‹_› ‹_› ‹_›
    | exact Step.finishPanic _ _ ‹_› ‹_› ‹_›
    | exact Step.closerWait ‹_› ‹_›
    | exact Step.closeValid ‹_›
    | exact Step.closeErr ‹_›
    | exact Step.cancel
    | exact Step.select _ _ ‹_› h
    | (have h1 := @Step.acquire env verbose s _ _ ‹_› ‹_› ‹_›; simp_all)
    | (have h1 := @Step.offer env verbose s _ _ _ _ _ ‹_› ‹_› ‹_›
        (by simpa using ‹¬ s.validClosed = true›); simp_all)

theorem pc_holds : Pc.holds .start = false ∧ Pc.holds .admitted = true ∧
    Pc.holds .probing = true ∧ (∀ r, Pc.holds (.probed r) = true) ∧ Pc.holds .acted = true ∧
    Pc.holds .released = false ∧ Pc.holds .done = false :=
  ⟨rfl, rfl, rfl, fun _ => rfl, rfl, rfl, rfl⟩

theorem pc_sent : Pc.sent .start = false ∧ Pc.sent .admitted = false ∧
    Pc.sent .probing = false ∧ (∀ r, Pc.sent (.probed r) = false) ∧ Pc.sent .acted = true ∧
    Pc.sent .released = true ∧ Pc.sent .done = true :=
  ⟨rfl, rfl, rfl, fun _ => rfl, rfl, rfl, rfl⟩

theorem pc_isDone : Pc.isDone .start = false ∧ Pc.isDone .admitted = false ∧
    Pc.isDone .probing = false ∧ (∀ r, Pc.isDone (.probed r) = false) ∧
    Pc.isDone .acted = false ∧ Pc.isDone .released = false ∧ Pc.isDone .done = true :=
  ⟨rfl, rfl, rfl, fun _ => rfl, rfl, rfl, rfl⟩

theorem pc_beforeProbe : Pc.beforeProbe .start = true ∧ Pc.beforeProbe .admitted = true ∧
    Pc.beforeProbe .probing = true ∧ (∀ r, Pc.beforeProbe (.probed r) = false) ∧
    Pc.beforeProbe .acted = false ∧ Pc.beforeProbe .released = false ∧
    Pc.beforeProbe .done = false :=
  ⟨rfl, rfl, rfl, fun _ => rfl, rfl, rfl, rfl⟩

theorem countP_set (p : Task → Bool) (l : List Task) (i : Nat) (t t1 : Task)
    (h : l[i]? = some t) :
    (l.set i t1).countP p + (if p t then 1 else 0) = l.countP p + (if p t1 then 1 else 0) := by
  induction l generalizing i with
  | nil => simp at h
  | cons a l ih =>
    cases i with
    | zero =>
      simp at h
      subst h
      simp [List.countP_cons]
      omega
    | succ i =>
      simp at h
      have := ih i h
      simp [List.countP_cons]
      omega

/-- The three counters of the goroutines after goroutine `i` moved from `t` to `t1`. -/
theorem counts_set (l : List Task) (i : Nat) (t t1 : Task) (h : l[i]? = some t) :
    (l.set i t1).countP (fun t => t.pc.holds) + (if t.pc.holds then 1 else 0)
      = l.countP (fun t => t.pc.holds) + (if t1.pc.holds then 1 else 0) ∧
    (l.set i t1).countP (fun t => !t.pc.isDone) + (if t.pc.isDone then 0 else 1)
      = l.countP (fun t => !t.pc.isDone) + (if t1.pc.isDone then 0 else 1) ∧
    (l.set i t1).countP (fun t => t.pc.sent) + (if t.pc.sent then 1 else 0)
      = l.countP (fun t => t.pc.sent) + (if t1.pc.sent then 1 else 0) := by
  have h1 := countP_set (fun t => t.pc.holds) l i t t1 h
  have h2 := countP_set (fun t => !t.pc.isDone) l i t t1 h
  have h3 := countP_set (fun t => t.pc.sent) l i t t1 h
  refine ⟨h1, ?_, h3⟩
  cases hd : t.pc.isDone <;> cases hd1 : t1.pc.isDone <;> simp [hd, hd1] at h2 ⊢ <;> omega

theorem countP_lt_length (p : Task → Bool) (l : List Task) (i : Nat) (t : Task)
    (h : l[i]? = some t) (hp : p t = false) : l.countP p < l.length := by
  induction l generalizing i with
  | nil => simp at h
  | cons a l ih =>
    have hle := List.countP_le_length p (l := l)
    cases i with
    | zero =>
      simp at h
      subst h
      simp [List.countP_cons, hp]
      omega
    | succ i =>
      simp at h
      have := ih i h
      simp only [List.countP_cons, List.length_cons]
      split <;> omega

theorem countP_pos (p : Task → Bool) (l : List Task) (i : Nat) (t : Task)
    (h : l[i]? = some t) (hp : p t = true) : 0 < l.countP p := by
  rw [List.countP_pos_iff]
  exact ⟨t, List.getElem?_mem h, hp⟩

theorem forall_set {P : Nat → Task → Prop} {l : List Task} {i : Nat} {t1 : Task}
    (hall : ∀ j tj, l[j]? = some tj → P j tj) (h1 : P i t1) :
    ∀ j tj, (l.set i t1)[j]? = some tj → P j tj := by
  intro j tj hj
  by_cases hij : i = j
  · subst hij
    obtain ⟨hlt, -⟩ := List.getElem?_eq_some.mp hj
    rw [List.getElem?_set_self (by simpa using hlt)] at hj
    cases hj
    exact h1
  · rw [List.getElem?_set_ne hij] at hj
    exact hall j tj hj

theorem terminal_sendErr {verbose : Bool} {t : Task} {r : Except GoError JsonData}
    {err : GoError} {out : List String} (h : terminal verbose t r = (.sendErr err, out)) :
    expectedHistory t.k r = ([], [err]) := by
  unfold terminal firstKeyTerminal laterKeyTerminal at h
  unfold expectedHistory
  cases r <;> cases t.stagger <;> simp at h ⊢ <;> (try split at h) <;> simp_all

theorem terminal_offer {verbose : Bool} {t : Task} {r : Except GoError JsonData}
    {k : String} {out : List String} (h : terminal verbose t r = (.offer k, out)) :
    k = t.k ∧ expectedHistory t.k r = ([t.k], []) := by
  unfold terminal firstKeyTerminal laterKeyTerminal at h
  unfold expectedHistory
  cases r <;> cases t.stagger <;> simp at h ⊢ <;> (try split at h) <;> simp_all

theorem stepSelect_frame {env : Env} {s s1 : State} {c : SelectCase}
    (h : stepSelect env s c = some s1) :
    s1.tasks = s.tasks ∧ s1.validClosed = s.validClosed ∧ s1.errClosed = s.errClosed ∧
    s1.errCap = s.errCap ∧ s1.sem = s.sem ∧ s1.semCap = s.semCap ∧ s1.wg = s.wg ∧
    s1.closer = s.closer ∧ s1.panicked = s.panicked ∧ s1.ctxDone = s.ctxDone ∧
    s1.errChan.length ≤ s.errChan.length ∧
    (s1.validKeyChan.isSome = true → s.validKeyChan.isSome = true) := by
  unfold stepSelect at h
  repeat' split at h
  all_goals first
    | (simp at h; done)
    | (simp only [Option.some.injEq] at h; subst h; simp_all)

theorem inv_init {env : Env} {verbose : Bool} {keys : List String} {maxGoroutines : Int}
    {s : State} (h : init verbose keys maxGoroutines = .ok s) :
    Inv env verbose keys maxGoroutines s := by
  unfold GetValidKey.init at h
  split at h
  · simp at h
  · rename_i hneg
    split at h
    · simp at h
    · rename_i k0 rest
      simp only [Except.ok.injEq] at h
      subst h
      have hc : ∀ l : List String, List.countP (fun t => t.pc.holds) (l.map laterKeyTask) = 0 ∧
          List.countP (fun t => !t.pc.isDone) (l.map laterKeyTask) = l.length ∧
          List.countP (fun t => t.pc.sent) (l.map laterKeyTask) = 0 := by
        intro l
        induction l with
        | nil => simp
        | cons a l ih =>
          simp [List.countP_cons, laterKeyTask, Pc.holds, Pc.isDone, Pc.sent] at ih ⊢
      obtain ⟨h1, h2, h3⟩ := hc rest
      constructor
      · rfl
      · simp
      · simp
      · simp only [Int.toNat_of_nonneg (not_lt.mp hneg)]
      · have h0 : List.countP (fun t => t.pc.holds) (firstKeyTask k0 :: rest.map laterKeyTask)
            = 0 := by
          rw [List.countP_cons, h1]
          rfl
        exact h0.symm
      · simp
      · have h0 : List.countP (fun t => !t.pc.isDone) (firstKeyTask k0 :: rest.map laterKeyTask)
            = rest.length + 1 := by
          rw [List.countP_cons, h2]
          rfl
        show 1 + rest.length = _
        rw [h0]
        omega
      · simp
      · simp
      · simp
      · intro i t ht
        cases i with
        | zero =>
          simp at ht
          subst ht
          simp [TaskOK, History, firstKeyTask]
        | succ i =>
          simp at ht
          obtain ⟨k, hk, rfl⟩ := ht
          simp [TaskOK, History, laterKeyTask, hk]

theorem inv_step {env : Env} {verbose : Bool} {keys : List String} {maxGoroutines : Int}
    {s s1 : State} (hinv : Inv env verbose keys maxGoroutines s)
    (h : Step env verbose s s1) : Inv env verbose keys maxGoroutines s1 := by
  obtain ⟨hP, hL, hE, hC, hS, hSL, hW, hEr, hV, hCl, hT⟩ := hinv
  cases h with
  | acquire i t ht hpc hlt =>
    obtain ⟨c1, c2, c3⟩ := counts_set s.tasks i t
      { t with pc := if t.stagger then .admitted else .probing } ht
    have hok := hT i t ht
    rcases Bool.eq_false_or_eq_true t.stagger with hst | hst <;>
      simp [hst, hpc, pc_holds, pc_isDone, pc_sent] at c1 c2 c3 <;>
      constructor <;>
      simp only [hst, Bool.false_eq_true, if_false, if_true, List.length_set] <;>
      first
        | assumption
        | omega
        | (intro hv; have := hV hv; omega)
        | (apply forall_set hT; simp_all [TaskOK, History])
  | sleep i t ht hpc =>
    obtain ⟨c1, c2, c3⟩ := counts_set s.tasks i t
      { t with pc := .probing } ht
    have hok := hT i t ht
    simp [hpc, pc_holds, pc_isDone, pc_sent] at c1 c2 c3
    constructor <;>
    simp only [List.length_set, List.length_append, List.length_singleton] <;>
    first
      | assumption
      | omega
      | (intro hv; have := hV hv; omega)
      | (intro; omega)
      | (rcases hCl with h0 | h0 <;> first | exact Or.inl h0 | (exfalso; omega))
      | (apply forall_set hT; simp_all [TaskOK, History])
  | probe i t ht hpc =>
    obtain ⟨c1, c2, c3⟩ := counts_set s.tasks i t
      { t with
        pc := Pc.probed (InfoAccount env.unmarshal (env.http i) (New t.k) verbose).1
        calls := t.calls + 1 } ht
    have hok := hT i t ht
    simp [hpc, pc_holds, pc_isDone, pc_sent] at c1 c2 c3
    constructor <;>
    simp only [List.length_set, List.length_append, List.length_singleton] <;>
    first
      | assumption
      | omega
      | (intro hv; have := hV hv; omega)
      | (intro; omega)
      | (rcases hCl with h0 | h0 <;> first | exact Or.inl h0 | (exfalso; omega))
      | (apply forall_set hT; simp_all [TaskOK, History])
  | sendErr i t r err out ht hpc hterm hopen hroom =>
    obtain ⟨c1, c2, c3⟩ := counts_set s.tasks i t
      { t with pc := .acted, recorded := t.recorded ++ [err] } ht
    have hok := hT i t ht
    have hexp := terminal_sendErr hterm
    simp [hpc, pc_holds, pc_isDone, pc_sent] at c1 c2 c3
    constructor <;>
    simp only [List.length_set, List.length_append, List.length_singleton] <;>
    first
      | assumption
      | omega
      | (intro hv; have := hV hv; omega)
      | (intro; omega)
      | (rcases hCl with h0 | h0 <;> first | exact Or.inl h0 | (exfalso; omega))
      | (apply forall_set hT; simp_all [TaskOK, History])
  | offer i t r k out ht hpc hterm hopen =>
    obtain ⟨c1, c2, c3⟩ := counts_set s.tasks i t
      { t with pc := .acted, offered := t.offered ++ [k] } ht
    have hok := hT i t ht
    obtain ⟨hk, hexp⟩ := terminal_offer hterm
    simp [hpc, pc_holds, pc_isDone, pc_sent] at c1 c2 c3
    constructor <;>
    simp only [List.length_set, List.length_append, List.length_singleton] <;>
    first
      | assumption
      | omega
      | (intro hv; have := hV hv; omega)
      | (intro; omega)
      | (rcases hCl with h0 | h0 <;> first | exact Or.inl h0 | (exfalso; omega))
      | (apply forall_set hT; simp_all [TaskOK, History])
  | release i t ht hpc hpos =>
    obtain ⟨c1, c2, c3⟩ := counts_set s.tasks i t
      { t with pc := .released } ht
    have hok := hT i t ht
    simp [hpc, pc_holds, pc_isDone, pc_sent] at c1 c2 c3
    constructor <;>
    simp only [List.length_set, List.length_append, List.length_singleton] <;>
    first
      | assumption
      | omega
      | (intro hv; have := hV hv; omega)
      | (intro; omega)
      | (rcases hCl with h0 | h0 <;> first | exact Or.inl h0 | (exfalso; omega))
      | (apply forall_set hT; simp_all [TaskOK, History])
  | finish i t n ht hpc hwg =>
    obtain ⟨c1, c2, c3⟩ := counts_set s.tasks i t
      { t with pc := .done } ht
    have hok := hT i t ht
    simp [hpc, pc_holds, pc_isDone, pc_sent] at c1 c2 c3
    constructor <;>
    simp only [List.length_set, List.length_append, List.length_singleton] <;>
    first
      | assumption
      | omega
      | (intro hv; have := hV hv; omega)
      | (intro; omega)
      | (rcases hCl with h0 | h0 <;> first | exact Or.inl h0 | (exfalso; omega))
      | (apply forall_set hT; simp_all [TaskOK, History])
  | sendErrClosed i t r err out ht hpc hterm hclosed =>
    have hpos := countP_pos (fun t => !t.pc.isDone) s.tasks i t ht (by simp [hpc, pc_isDone])
    rcases hCl with ⟨-, -, h0⟩ | h0
    · simp [hclosed] at h0
    · omega
  | offerClosed i t r k out ht hpc hterm hclosed =>
    have hpos := countP_pos (fun t => !t.pc.isDone) s.tasks i t ht (by simp [hpc, pc_isDone])
    rcases hCl with ⟨-, h0, -⟩ | h0
    · simp [hclosed] at h0
    · omega
  | finishPanic i t ht hpc hwg =>
    have hpos := countP_pos (fun t => !t.pc.isDone) s.tasks i t ht (by simp [hpc, pc_isDone])
    omega
  | closerWait hw hwg =>
    constructor <;> first | assumption | exact Or.inr hwg
  | closeValid hw =>
    have h0 : s.wg = 0 := by
      rcases hCl with ⟨h1, -, -⟩ | h0
      · simp [hw] at h1
      · exact h0
    constructor <;> first | assumption | exact Or.inr h0
  | closeErr hw =>
    have h0 : s.wg = 0 := by
      rcases hCl with ⟨h1, -, -⟩ | h0
      · simp [hw] at h1
      · exact h0
    constructor <;> first | assumption | exact Or.inr h0
  | cancel =>
    constructor <;> assumption
  | select c s1 hret hsel =>
    obtain ⟨f1, f2, f3, f4, f5, f6, f7, f8, f9, -, f11, f12⟩ := stepSelect_frame hsel
    constructor <;> simp only [f1, f2, f3, f4, f5, f6, f7, f8, f9] <;>
      first
        | assumption
        | omega
        | (intro hv; exact hV (f12 hv))

theorem reachable_inv {env : Env} {verbose : Bool} {keys : List String} {maxGoroutines : Int}
    {s : State} (h : Reachable env verbose keys maxGoroutines s) :
    Inv env verbose keys maxGoroutines s := by
  induction h with
  | init h0 => exact inv_init h0
  | step a _ hstep ih => exact inv_step ih (step_sound hstep).2

theorem reachable_run {env : Env} {verbose : Bool} {keys : List String} {maxGoroutines : Int}
    (sched : List Action) {s s1 : State} (h : Reachable env verbose keys maxGoroutines s)
    (hrun : run env verbose sched s = some s1) : Reachable env verbose keys maxGoroutines s1 := by
  induction sched generalizing s with
  | nil =>
    simp only [GetValidKey.run, Option.some.injEq] at hrun
    exact hrun ▸ h
  | cons a as ih =>
    simp only [GetValidKey.run] at hrun
    cases hstep : GetValidKey.step env verbose a s with
    | none => simp [hstep] at hrun
    | some s2 =>
      simp only [hstep, Option.some_bind] at hrun
      exact ih (Reachable.step a h hstep) hrun

theorem exec_reachable {env : Env} {verbose : Bool} {keys : List String} {maxGoroutines : Int}
    {sched : List Action} {s : State} (h : exec env verbose keys maxGoroutines sched = some s) :
    Reachable env verbose keys maxGoroutines s := by
  unfold exec at h
  split at h
  · rename_i s0 h0
    exact reachable_run sched (Reachable.init h0) h
  · simp at h

theorem InfoAccount_fst (unmarshal : Unmarshal) (http : String → Exchange) (s : API)
    (verbose : Bool) :
    (InfoAccount unmarshal http s verbose).1 = (InfoAccount unmarshal http s false).1 := by
  unfold InfoAccount
  simp only
  repeat' split
  all_goals rfl

theorem terminal_fst (verbose : Bool) (t : Task) (r : Except GoError JsonData) :
    (terminal verbose t r).1 = (terminal false t r).1 := by
  unfold terminal firstKeyTerminal laterKeyTerminal
  repeat' split
  all_goals rfl

theorem step_mute (env : Env) (verbose : Bool) (a : Action) (s : State) :
    (step env verbose a s).map mute = (step env false a (mute s)).map mute := by
  unfold step
  cases hp : s.panicked with
  | some msg => simp [mute, hp]
  | none =>
    cases a with
    | acquire i =>
      cases ht : s.tasks[i]? with
      | none => simp [mute, hp, ht]
      | some t =>
        cases hpc : t.pc <;> simp [mute, hp, ht, stepTask, hpc] <;> (repeat' split) <;>
          first | rfl | simp_all [mute]
    | sleep i =>
      cases ht : s.tasks[i]? with
      | none => simp [mute, hp, ht]
      | some t =>
        cases hpc : t.pc <;> simp [mute, hp, ht, stepTask, hpc] <;> (repeat' split) <;>
          first | rfl | simp_all [mute]
    | probe i =>
      cases ht : s.tasks[i]? with
      | none => simp [mute, hp, ht]
      | some t =>
        cases hpc : t.pc <;> simp [mute, hp, ht, stepTask, hpc]
        rw [InfoAccount_fst]
    | act i =>
      cases ht : s.tasks[i]? with
      | none => simp [mute, hp, ht]
      | some t =>
        cases hpc : t.pc <;> simp [mute, hp, ht, stepTask, hpc]
        rename_i r
        have hfst := terminal_fst verbose t r
        rcases h1 : terminal verbose t r with ⟨a1, o1⟩
        rcases h0 : terminal false t r with ⟨a0, o0⟩
        simp only [h1, h0] at hfst
        subst hfst
        cases a1 <;> simp only [] <;> (repeat' split) <;> first | rfl | simp_all [mute]
    | release i =>
      cases ht : s.tasks[i]? with
      | none => simp [mute, hp, ht]
      | some t =>
        cases hpc : t.pc <;> simp [mute, hp, ht, stepTask, hpc] <;> (repeat' split) <;>
          first | rfl | simp_all [mute]
    | finish i =>
      cases ht : s.tasks[i]? with
      | none => simp [mute, hp, ht]
      | some t =>
        cases hpc : t.pc <;> simp [mute, hp, ht, stepTask, hpc]
        cases s.wg <;> rfl
    | closerWait =>
      cases hc : s.closer <;> simp [mute, hp, hc] <;> (repeat' split) <;>
        first | rfl | simp_all [mute]
    | closeValid => cases hc : s.closer <;> simp [mute, hp, hc] <;> rfl
    | closeErr => cases hc : s.closer <;> simp [mute, hp, hc] <;> rfl
    | cancel => simp [mute, hp]
    | select c =>
      cases hr : s.ret with
      | some r => simp [mute, hp, hr]
      | none =>
        cases c <;> simp [mute, hp, hr, stepSelect] <;> (repeat' split) <;>
          first | rfl | simp_all [mute]

theorem run_mute (env : Env) (sched : List Action) (verbose : Bool) (s : State) :
    (run env verbose sched s).map mute = (run env false sched (mute s)).map mute := by
  induction sched generalizing s verbose with
  | nil => simp [run, mute]
  | cons a as ih =>
    have hstep := step_mute env verbose a s
    simp only [run]
    cases h1 : step env verbose a s with
    | none =>
      cases h0 : step env false a (mute s) with
      | none => rfl
      | some s0 => simp [h1, h0] at hstep
    | some s1 =>
      cases h0 : step env false a (mute s) with
      | none => simp [h1, h0] at hstep
      | some s0 =>
        have hm : mute s1 = mute s0 := by simpa [h1, h0] using hstep
        simp only [Option.some_bind]
        rw [ih verbose s1, ih false s0, hm]

theorem init_mute (keys : List String) (maxGoroutines : Int) (verbose : Bool) :
    (match init verbose keys maxGoroutines with
      | .ok s => some (mute s)
      | .error _ => none)
    = (match init false keys maxGoroutines with
      | .ok s => some (mute s)
      | .error _ => none) := by
  by_cases hneg : maxGoroutines < 0 <;> cases keys <;> simp [init, hneg, mute]

theorem exec_mute (env : Env) (keys : List String) (maxGoroutines : Int)
    (sched : List Action) (verbose : Bool) :
    (exec env verbose keys maxGoroutines sched).map mute
      = (exec env false keys maxGoroutines sched).map mute := by
  have hi := init_mute keys maxGoroutines verbose
  unfold exec
  cases h1 : init verbose keys maxGoroutines with
  | error e1 =>
    cases h0 : init false keys maxGoroutines with
    | error e0 => rfl
    | ok s0 => simp [h1, h0] at hi
  | ok s1 =>
    cases h0 : init false keys maxGoroutines with
    | error e0 => simp [h1, h0] at hi
    | ok s0 =>
      simp only [h1, h0, Option.some.injEq] at hi
      simp only
      rw [run_mute env sched verbose s1, run_mute env sched false s0, hi]

theorem history_facts {r : Except GoError JsonData} {t : Task} (h : History r t) :
    (t.pc.beforeProbe = true → t.calls = 0) ∧ (t.pc.beforeProbe = false → t.calls = 1) ∧
    (t.pc.sent = false → t.offered = [] ∧ t.recorded = []) ∧
    (t.pc.sent = true → (t.offered, t.recorded) = expectedHistory t.k r) := by
  unfold History at h
  cases hpc : t.pc <;> simp [hpc, pc_beforeProbe, pc_sent] at h ⊢ <;> simp [h]

theorem recorded_sum_le (l : List Task)
    (h : ∀ t ∈ l, t.recorded.length ≤ if t.pc.sent then 1 else 0) :
    (l.map (fun t => t.recorded.length)).sum ≤ l.countP (fun t => t.pc.sent) := by
  induction l with
  | nil => simp
  | cons a l ih =>
    have ha := h a (List.mem_cons_self a l)
    have hl := ih (fun t ht => h t (List.mem_cons_of_mem a ht))
    rw [List.map_cons, List.sum_cons, List.countP_cons]
    omega

theorem expectedHistory_length (k : String) (r : Except GoError JsonData) :
    (expectedHistory k r).2.length ≤ 1 := by
  unfold expectedHistory
  cases r with
  | error e => simp
  | ok info =>
    simp only
    split <;> simp

/-- The terminal action of a goroutine whose probe has returned is enabled. -/
theorem act_enabled {env : Env} {verbose : Bool} {keys : List String} {maxGoroutines : Int}
    {s : State} (hinv : Inv env verbose keys maxGoroutines s) {i : Nat} {t : Task}
    {r : Except GoError JsonData} (ht : s.tasks[i]? = some t) (hpc : t.pc = .probed r) :
    s.validClosed = false ∧ s.errClosed = false ∧ s.errChan.length < s.errCap ∧
    ∃ s1 t1, step env verbose (.act i) s = some s1 ∧ s1.tasks[i]? = some t1 ∧
      t1.pc = .acted ∧ s1.sem = s.sem := by
  have hi : i < s.tasks.length := (List.getElem?_eq_some.mp ht).1
  have hlive := countP_pos (fun t => !t.pc.isDone) s.tasks i t ht (by simp [hpc, pc_isDone])
  have hroom := countP_lt_length (fun t => t.pc.sent) s.tasks i t ht (by simp [hpc, pc_sent])
  have hwg := hinv.wg
  have herr := hinv.err
  have hlen := hinv.len
  have hcap := hinv.errCap
  have hP := hinv.noPanic
  have hopen : s.validClosed = false ∧ s.errClosed = false := by
    rcases hinv.closer with ⟨-, h1, h2⟩ | h0
    · exact ⟨h1, h2⟩
    · omega
  have hlt : s.errChan.length < s.errCap := by omega
  refine ⟨hopen.1, hopen.2, hlt, ?_⟩
  rcases hterm : terminal verbose t r with ⟨a, o⟩
  cases a with
  | sendErr err =>
    refine ⟨{ s with
        errChan := s.errChan ++ [err]
        tasks := s.tasks.set i { t with pc := .acted, recorded := t.recorded ++ [err] }
        out := s.out ++ o },
      { t with pc := .acted, recorded := t.recorded ++ [err] }, ?_, ?_, rfl, ?_⟩
    · simp only [step, hP, ht, stepTask, hpc, hterm, hopen.2, hlt, if_true, Bool.false_eq_true,
        if_false]
    · simp [List.getElem?_set_self hi]
    · rfl
  | offer k =>
    refine ⟨{ s with
        validKeyChan := match s.validKeyChan with
          | none => some k
          | some k1 => some k1
        tasks := s.tasks.set i { t with pc := .acted, offered := t.offered ++ [k] }
        out := s.out ++ o },
      { t with pc := .acted, offered := t.offered ++ [k] }, ?_, ?_, rfl, ?_⟩
    · simp only [step, hP, ht, stepTask, hpc, hterm, hopen.1, Bool.false_eq_true, if_false]
    · simp [List.getElem?_set_self hi]
    · rfl

/-- The deferred release of a goroutine that has acted is enabled. -/
theorem release_enabled {env : Env} {verbose : Bool} {keys : List String}
    {maxGoroutines : Int} {s : State} (hinv : Inv env verbose keys maxGoroutines s) {i : Nat}
    {t : Task} (ht : s.tasks[i]? = some t) (hpc : t.pc = .acted) :
    ∃ s1 t1, step env verbose (.release i) s = some s1 ∧ s1.tasks[i]? = some t1 ∧
      t1.pc = .released ∧ s1.sem + 1 = s.sem := by
  have hi : i < s.tasks.length := (List.getElem?_eq_some.mp ht).1
  have hheld := countP_pos (fun t => t.pc.holds) s.tasks i t ht (by simp [hpc, pc_holds])
  have hsem := hinv.sem
  have hpos : 0 < s.sem := by omega
  refine ⟨{ s with sem := s.sem - 1, tasks := s.tasks.set i { t with pc := .released } },
    { t with pc := .released }, ?_, ?_, rfl, ?_⟩
  · simp only [step, hinv.noPanic, ht, stepTask, hpc, hpos, if_true]
  · simp [List.getElem?_set_self hi]
  · simp only
    omega

/-- The deferred `wg.Done()` of a goroutine that has released its slot is enabled. -/
theorem finish_enabled {env : Env} {verbose : Bool} {keys : List String}
    {maxGoroutines : Int} {s : State} (hinv : Inv env verbose keys maxGoroutines s) {i : Nat}
    {t : Task} (ht : s.tasks[i]? = some t) (hpc : t.pc = .released) :
    ∃ s1 t1, step env verbose (.finish i) s = some s1 ∧ s1.tasks[i]? = some t1 ∧
      t1.pc = .done ∧ s1.sem = s.sem ∧ s1.panicked = none := by
  have hi : i < s.tasks.length := (List.getElem?_eq_some.mp ht).1
  have hlive := countP_pos (fun t => !t.pc.isDone) s.tasks i t ht (by simp [hpc, pc_isDone])
  have hwg := hinv.wg
  obtain ⟨n, hn⟩ : ∃ n, s.wg = n + 1 := ⟨s.wg - 1, by omega⟩
  refine ⟨{ s with wg := n, tasks := s.tasks.set i { t with pc := .done } },
    { t with pc := .done }, ?_, ?_, rfl, rfl, hinv.noPanic⟩
  · simp only [step, hinv.noPanic, ht, stepTask, hpc, hn]
  · simp [List.getElem?_set_self hi]

end GetValidKey

/-! ## The claims -/

open GetValidKey

/-- C4: in every state `GetValidKey` can reach, for every list of keys and
every `maxGoroutines`, the number of probe goroutines that hold a slot of `sem`
(acquired and not yet released: sleeping, calling `InfoAccount` or on the way
to the deferred release) is the number of elements in `sem` and is at most
`maxGoroutines`. -/
theorem GetValidKey_holders_le_maxGoroutines (env : Env) (verbose : Bool) (keys : List String)
    (maxGoroutines : Int) (s : State) (h : Reachable env verbose keys maxGoroutines s) :
    s.tasks.countP (fun t => t.pc.holds) = s.sem ∧
      ((s.tasks.countP (fun t => t.pc.holds) : Nat) : Int) ≤ maxGoroutines := by
  have hinv := reachable_inv h
  refine ⟨hinv.sem.symm, ?_⟩
  have h1 := hinv.sem
  have h2 := hinv.semLe
  have h3 := hinv.semCap
  omega

/-- Witness of C4: with three keys and `maxGoroutines = 1`, after the goroutine
of the first key has acquired its slot exactly one goroutine holds a slot. -/
theorem GetValidKey_holders_le_maxGoroutines_witness :
    ∃ s, exec (exampleEnv ["0", "0", "5"]) false ["k1", "k2", "k3"] 1 [.acquire 0] = some s ∧
      s.tasks.countP (fun t => t.pc.holds) = 1 ∧
      s.tasks.countP (fun t => t.pc.holds) = s.sem ∧
      ((s.tasks.countP (fun t => t.pc.holds) : Nat) : Int) ≤ 1 :=
  ⟨_, rfl, by decide,
    GetValidKey_holders_le_maxGoroutines (exampleEnv ["0", "0", "5"]) false ["k1", "k2", "k3"] 1 _
      (@exec_reachable _ _ _ _ [.acquire 0] _ rfl)⟩

/-- C1 (the code departs from it): for `keys = ["k1", "k2"]`, where the probe
of `k1` returns 0 query credits and the probe of `k2` returns 5, no probe fails
and the deadline does not pass, `GetValidKey` can return the failure of line
215: the error the goroutine of `k1` sends for its empty balance is received by
the `select` before `k2` is probed. -/
theorem GetValidKey_positive_key_lost :
    (InfoAccount exampleUnmarshal ((exampleEnv ["0", "5"]).http 0) (New "k1") false).1
      = .ok { (default : JsonData) with QueryCredits := 0 } ∧
    (InfoAccount exampleUnmarshal ((exampleEnv ["0", "5"]).http 1) (New "k2") false).1
      = .ok { (default : JsonData) with QueryCredits := 5 } ∧
    GetValidKey (exampleEnv ["0", "5"]) false ["k1", "k2"] 5
        [.acquire 0, .probe 0, .act 0, .select .recvErr]
      = some ⟨"", some (noValidKeys (some (errorsNew "no query credits")))⟩ ∧
    (exec (exampleEnv ["0", "5"]) false ["k1", "k2"] 5
        [.acquire 0, .probe 0, .act 0, .select .recvErr]).map (fun s => s.ctxDone)
      = some false :=
  ⟨rfl, rfl, rfl, rfl⟩

/-- C2 (the code departs from it): for `keys = ["k1"]` whose probe returns 0
query credits, once the goroutine has ended and the closer has closed
`validKeyChan`, the `select` can receive the zero value from the closed channel:
`GetValidKey` returns the empty string with a nil error, and the empty string
is not one of the keys. -/
theorem GetValidKey_returns_empty_key :
    GetValidKey (exampleEnv ["0"]) false ["k1"] 5
        [.acquire 0, .probe 0, .act 0, .release 0, .finish 0, .closerWait, .closeValid,
          .select .recvValid]
      = some ⟨"", none⟩ ∧
    "" ∉ ["k1"] :=
  ⟨rfl, by decide⟩

/-- C3 (the code departs from it): for `keys = ["k1", "k2"]` whose probes both
return 0 query credits, `GetValidKey` can return the failure of line 215 while
the goroutine of `k2` has not yet called `InfoAccount`: the first error in
`errChan` is enough for the `select`. -/
theorem GetValidKey_fails_before_all_probed :
    GetValidKey (exampleEnv ["0", "0"]) false ["k1", "k2"] 5
        [.acquire 0, .probe 0, .act 0, .select .recvErr]
      = some ⟨"", some (noValidKeys (some (errorsNew "no query credits")))⟩ ∧
    (exec (exampleEnv ["0", "0"]) false ["k1", "k2"] 5
        [.acquire 0, .probe 0, .act 0, .select .recvErr]).map
        (fun s => (s.ctxDone, s.tasks.map (fun t => (t.calls, t.pc.isDone))))
      = some (false, [(1, false), (0, false)]) :=
  ⟨rfl, rfl⟩

/-- C6: when the exchange yields a response with status 401, `InfoAccount`
returns no account data and the error `unauthorized access: ` followed by the
bytes read from the body, whatever the decoder would say of them; for any
other status it returns what decoding the body gives, or the read error, so an
error is returned only if reading or decoding fails. -/
theorem InfoAccount_unauthorized_or_decoded (unmarshal : Unmarshal) (http : String → Exchange)
    (s : API) (verbose : Bool) (res : Response)
    (hreq : (http (infoURL s)).newRequestErr = none)
    (hdo : (http (infoURL s)).doResult = .ok res) :
    (res.StatusCode = StatusUnauthorized →
      (InfoAccount unmarshal http s verbose).1
        = .error (errorsNew ("unauthorized access: " ++ res.body))) ∧
    (res.StatusCode ≠ StatusUnauthorized →
      (InfoAccount unmarshal http s verbose).1
          = (match res.readErr with
            | some err => .error err
            | none => unmarshal res.body) ∧
        ∀ err, (InfoAccount unmarshal http s verbose).1 = .error err →
          res.readErr = some err ∨ unmarshal res.body = .error err) := by
  constructor
  · intro h401
    simp [InfoAccount, hreq, hdo, h401]
  · intro hne
    have heq : (InfoAccount unmarshal http s verbose).1
        = (match res.readErr with
          | some err => .error err
          | none => unmarshal res.body) := by
      simp only [InfoAccount, hreq, hdo, if_neg hne]
      cases res.readErr with
      | some err => rfl
      | none =>
        simp only
        cases unmarshal res.body <;> rfl
    refine ⟨heq, ?_⟩
    intro err herr
    rw [heq] at herr
    cases hr : res.readErr with
    | some e =>
      simp only [hr, Except.error.injEq] at herr
      exact Or.inl (by rw [herr])
    | none =>
      simp only [hr] at herr
      exact Or.inr herr

/-- Witness of C6: a 401 response whose body is not valid JSON, and a 200
response whose body decodes. -/
theorem InfoAccount_unauthorized_or_decoded_witness :
    (InfoAccount exampleUnmarshal
        (fun _ => ⟨none, .ok ⟨401, "Invalid API key", none⟩⟩) (New "k1") true).1
      = .error (errorsNew "unauthorized access: Invalid API key") ∧
    (InfoAccount exampleUnmarshal
        (fun _ => ⟨none, .ok ⟨200, "5", none⟩⟩) (New "k1") true).1
      = .ok { (default : JsonData) with QueryCredits := 5 } :=
  ⟨(InfoAccount_unauthorized_or_decoded exampleUnmarshal
      (fun _ => ⟨none, .ok ⟨401, "Invalid API key", none⟩⟩) (New "k1") true
      ⟨401, "Invalid API key", none⟩ rfl rfl).1 rfl,
    ((InfoAccount_unauthorized_or_decoded exampleUnmarshal
      (fun _ => ⟨none, .ok ⟨200, "5", none⟩⟩) (New "k1") true
      ⟨200, "5", none⟩ rfl rfl).2 (by decide)).1⟩

/-- C9: `keys[0]` is in bounds for every non-empty list, and then `GetValidKey`
starts for every `maxGoroutines ≥ 0`; for the empty list it is out of bounds
and the call panics instead of reaching a state from which it could return;
`main` stops at line 37 when no key was loaded and otherwise calls
`GetValidKey` with a non-empty list, so its call never panics. -/
theorem GetValidKey_requires_nonempty_keys :
    (∀ keys : List String, keys ≠ [] →
      keys[0]?.isSome = true ∧
      ∀ (verbose : Bool) (maxGoroutines : Int), 0 ≤ maxGoroutines →
        ∃ s, GetValidKey.init verbose keys maxGoroutines = .ok s) ∧
    (([] : List String)[0]? = none ∧
      ∀ (verbose : Bool) (maxGoroutines : Int),
        ∃ msg, GetValidKey.init verbose [] maxGoroutines = .error msg) ∧
    (∀ (verbose : Bool) (keys : List String),
      (keys = [] → mainEntry verbose keys = .fatal "No API keys loaded") ∧
      (keys ≠ [] → ∃ s, GetValidKey.init verbose keys MaxGoroutines = .ok s ∧
        mainEntry verbose keys = .validating s) ∧
      ∀ msg, mainEntry verbose keys ≠ .panicked msg) := by
  refine ⟨?_, ⟨rfl, ?_⟩, ?_⟩
  · intro keys hne
    cases keys with
    | nil => exact absurd rfl hne
    | cons k0 rest =>
      refine ⟨by simp, ?_⟩
      intro verbose maxGoroutines hpos
      simp [GetValidKey.init, not_lt.mpr hpos]
  · intro verbose maxGoroutines
    unfold GetValidKey.init
    split
    · exact ⟨_, rfl⟩
    · exact ⟨_, rfl⟩
  · intro verbose keys
    cases keys with
    | nil =>
      refine ⟨fun _ => rfl, fun h => absurd rfl h, ?_⟩
      intro msg h
      simp [mainEntry] at h
    | cons k0 rest =>
      refine ⟨fun h => by simp at h, fun _ => ?_, ?_⟩
      · simp [mainEntry, GetValidKey.init, MaxGoroutines]
      · intro msg h
        simp [mainEntry, GetValidKey.init, MaxGoroutines] at h

/-- Witness of C9: with two loaded keys `main` reaches the call and
`GetValidKey` starts one goroutine for each key. -/
theorem GetValidKey_requires_nonempty_keys_witness :
    ∃ s, GetValidKey.init false ["k1", "k2"] MaxGoroutines = .ok s ∧
      mainEntry false ["k1", "k2"] = .validating s :=
  (GetValidKey_requires_nonempty_keys.2.2 false ["k1", "k2"]).2.1 (by decide)

/-- C7: the flag `verbose` changes only what is written out. `InfoAccount`
returns the same data or error with `verbose` set and unset, for every decoder,
network answer and key; every schedule of `GetValidKey` is enabled with
`verbose` set exactly when it is with `verbose` unset and leads to the same
state up to the output, hence to the same returned values; so the set of
values `GetValidKey` can return is the same. -/
theorem verbose_only_observability (env : Env) (keys : List String) (maxGoroutines : Int) :
    (∀ (unmarshal : Unmarshal) (http : String → Exchange) (s : API),
      (InfoAccount unmarshal http s true).1 = (InfoAccount unmarshal http s false).1) ∧
    (∀ sched, (exec env true keys maxGoroutines sched).map mute
      = (exec env false keys maxGoroutines sched).map mute) ∧
    (∀ sched, GetValidKey env true keys maxGoroutines sched
      = GetValidKey env false keys maxGoroutines sched) ∧
    (∀ r : Ret,
      (∃ sched, GetValidKey env true keys maxGoroutines sched = some r) ↔
      (∃ sched, GetValidKey env false keys maxGoroutines sched = some r)) := by
  have hret : ∀ sched, GetValidKey env true keys maxGoroutines sched
      = GetValidKey env false keys maxGoroutines sched := by
    intro sched
    have h1 := exec_mute env keys maxGoroutines sched true
    unfold GetValidKey
    cases ht : exec env true keys maxGoroutines sched with
    | none =>
      cases hf : exec env false keys maxGoroutines sched with
      | none => rfl
      | some s0 => simp [ht, hf] at h1
    | some s1 =>
      cases hf : exec env false keys maxGoroutines sched with
      | none => simp [ht, hf] at h1
      | some s0 =>
        have h4 : mute s1 = mute s0 := by simpa [ht, hf] using h1
        have h5 : (mute s1).ret = (mute s0).ret := by rw [h4]
        exact h5
  refine ⟨fun u h s => InfoAccount_fst u h s true, fun sched => exec_mute env keys _ sched true,
    hret, ?_⟩
  intro r
  constructor
  · rintro ⟨sched, hs⟩
    exact ⟨sched, by rw [← hret, hs]⟩
  · rintro ⟨sched, hs⟩
    exact ⟨sched, by rw [hret, hs]⟩

/-- C10: in every state `GetValidKey` can reach no goroutine has panicked, the
number of errors sent to `errChan` is at most `len(keys)`, its capacity; for
every goroutine whose call of `InfoAccount` has returned, with an error or
not, both channels are still open and `errChan` has room, so its terminal
action, its deferred release of the slot and its deferred `wg.Done()` are all
enabled and lead to a state in which it has ended and `sem` holds one element
less; and once the closer has closed a channel every probe goroutine has
ended, so none sends after the close. -/
theorem GetValidKey_sends_never_block (env : Env) (verbose : Bool) (keys : List String)
    (maxGoroutines : Int) (s : State) (h : Reachable env verbose keys maxGoroutines s) :
    s.panicked = none ∧
    s.errCap = keys.length ∧
    (s.tasks.map (fun t => t.recorded.length)).sum ≤ keys.length ∧
    s.errChan.length ≤ keys.length ∧
    (∀ i t r, s.tasks[i]? = some t → t.pc = .probed r →
      s.validClosed = false ∧ s.errClosed = false ∧ s.errChan.length < s.errCap ∧
      ∃ s1 s2 s3 t3, step env verbose (.act i) s = some s1 ∧
        step env verbose (.release i) s1 = some s2 ∧
        step env verbose (.finish i) s2 = some s3 ∧
        s3.panicked = none ∧ s3.sem + 1 = s.sem ∧
        s3.tasks[i]? = some t3 ∧ t3.pc.isDone = true) ∧
    ((s.validClosed = true ∨ s.errClosed = true) → ∀ t ∈ s.tasks, t.pc.isDone = true) := by
  have hinv := reachable_inv h
  have hsent : s.tasks.countP (fun t => t.pc.sent) ≤ s.tasks.length := List.countP_le_length _
  have hlen := hinv.len
  have herr := hinv.err
  refine ⟨hinv.noPanic, hinv.errCap, ?_, by omega, ?_, ?_⟩
  · have hrec := recorded_sum_le s.tasks (by
      intro t ht
      obtain ⟨i, hi⟩ := List.mem_iff_getElem?.mp ht
      obtain ⟨-, -, hh⟩ := hinv.task i t hi
      obtain ⟨-, -, f3, f4⟩ := history_facts hh
      cases hs : t.pc.sent
      · simp [(f3 hs).2]
      · have h2 := congrArg Prod.snd (f4 hs)
        simp only at h2
        rw [h2]
        simpa using expectedHistory_length _ _)
    omega
  · intro i t r ht hpc
    obtain ⟨o1, o2, o3, s1, t1, hs1, ht1, hpc1, hsem1⟩ := act_enabled hinv ht hpc
    have hr1 := Reachable.step (.act i) h hs1
    obtain ⟨s2, t2, hs2, ht2, hpc2, hsem2⟩ := release_enabled (reachable_inv hr1) ht1 hpc1
    have hr2 := Reachable.step (.release i) hr1 hs2
    obtain ⟨s3, t3, hs3, ht3, hpc3, hsem3, hp3⟩ := finish_enabled (reachable_inv hr2) ht2 hpc2
    refine ⟨o1, o2, o3, s1, s2, s3, t3, hs1, hs2, hs3, hp3, by omega, ht3, ?_⟩
    simp [hpc3, pc_isDone]
  · intro hclosed t ht
    have hwg0 : s.wg = 0 := by
      rcases hinv.closer with ⟨-, h1, h2⟩ | h0
      · rcases hclosed with hc | hc
        · simp [hc] at h1
        · simp [hc] at h2
      · exact h0
    have hcount : s.tasks.countP (fun t => !t.pc.isDone) = 0 := by
      rw [← hinv.wg]
      exact hwg0
    have hall := List.countP_eq_zero.mp hcount t ht
    simpa using hall

/-- Witness of C10: one key whose probe returns 0 query credits, after the
probe: the error send, the release and `wg.Done()` are enabled in turn. -/
theorem GetValidKey_sends_never_block_witness :
    ∃ s, exec (exampleEnv ["0"]) false ["k1"] 1 [.acquire 0, .probe 0] = some s ∧
      s.errChan.length < s.errCap ∧
      ∃ s1 s2 s3 t3, step (exampleEnv ["0"]) false (.act 0) s = some s1 ∧
        step (exampleEnv ["0"]) false (.release 0) s1 = some s2 ∧
        step (exampleEnv ["0"]) false (.finish 0) s2 = some s3 ∧
        s3.panicked = none ∧ s3.sem + 1 = s.sem ∧
        s3.tasks[0]? = some t3 ∧ t3.pc.isDone = true :=
  ⟨_, rfl,
    ((GetValidKey_sends_never_block (exampleEnv ["0"]) false ["k1"] 1 _
      (@exec_reachable _ _ _ _ [.acquire 0, .probe 0] _ rfl)).2.2.2.2.1 0 _ _ rfl rfl).2.2.1,
    ((GetValidKey_sends_never_block (exampleEnv ["0"]) false ["k1"] 1 _
      (@exec_reachable _ _ _ _ [.acquire 0, .probe 0] _ rfl)).2.2.2.2.1 0 _ _ rfl rfl).2.2.2⟩

end Godan
